import Mathlib

/-!
Shallow embedding of the YM2149 sound-emulation core of sound.c (the
table-driven path compiled when OLD_SOUND is not set), together with
theorems settling the specification claims about it.

Machine integers are embedded as Nat with explicit reductions mod 2 ^ 32
where the C code stores into 32-bit unsigned variables; the scheduler,
whose C variables are signed int, is embedded over Int with Int.tdiv,
the truncating division of C.  The replay frequency YM_REPLAY_FREQ, the
frame constants CYCLES_PER_FRAME and SAMPLES_PER_FRAME and the buffer
capacity MIXBUFFER_SIZE come from configuration outside this file, so
they are parameters of the embedded functions.
-/

/-- YM_ATARI_CLOCK: the YM-2149 clock on an Atari ST is 2 MHz. -/
def YM_ATARI_CLOCK : Nat := 2000000

/-- Tone period as computed inside Ym2149_ToneStepCompute:
per = rHigh and 15, then per = (per shifted left by 8) + rLow. -/
def tonePeriod (rHigh rLow : Nat) : Nat := ((rHigh &&& 15) <<< 8) + rLow

/-- Ym2149_ToneStepCompute of sound.c.  The 64-bit intermediate value
(YM_ATARI_CLOCK shifted left by 15+16-3, divided by per times the replay
frequency) is returned through the ymu32 return type, hence the final
reduction mod 2 ^ 32. -/
def Ym2149_ToneStepCompute (freq rHigh rLow : Nat) : Nat :=
  let per := tonePeriod rHigh rLow
  if per ≤ 5 then 0
  else ((YM_ATARI_CLOCK <<< (15 + 16 - 3)) / (per * freq)) % 2 ^ 32

/-- Noise period as computed inside Ym2149_NoiseStepCompute: rNoise and 0x1f. -/
def noisePeriod (rNoise : Nat) : Nat := rNoise &&& 0x1f

/-- Ym2149_NoiseStepCompute of sound.c, with the ymu32 return reduction. -/
def Ym2149_NoiseStepCompute (freq rNoise : Nat) : Nat :=
  let per := noisePeriod rNoise
  if per < 3 then 0
  else ((YM_ATARI_CLOCK <<< (16 - 1 - 3)) / (per * freq)) % 2 ^ 32

/-- Envelope period as computed inside Ym2149_EnvStepCompute:
per = rHigh, then per = (per shifted left by 8) + rLow (rHigh unmasked). -/
def envPeriod (rHigh rLow : Nat) : Nat := (rHigh <<< 8) + rLow

/-- Ym2149_EnvStepCompute of sound.c.  For per greater than 0 the divisor is
8 * per * freq; for per = 0 the C source divides by 8 * 1/2 * freq, which
under C integer arithmetic evaluates left to right to 4 * freq, the
divisor of an effective period of one half. -/
def Ym2149_EnvStepCompute (freq rHigh rLow : Nat) : Nat :=
  let per := envPeriod rHigh rLow
  (if 0 < per then (YM_ATARI_CLOCK <<< 24) / (8 * per * freq)
   else (YM_ATARI_CLOCK <<< 24) / (8 * 1 / 2 * freq)) % 2 ^ 32

/-- YmVolume4to5 of sound.c: the 16-entry 4-bit to 5-bit fixed-volume
expansion table. -/
def YmVolume4to5 (v : Nat) : Nat :=
  [0, 2, 5, 7, 9, 11, 13, 15, 17, 19, 21, 23, 25, 27, 29, 31].getD v 0

/-- YM_MERGE_VOICE of sound.c: pack three 5-bit volumes into one word. -/
def YM_MERGE_VOICE (c b a : Nat) : Nat := (c <<< 10) ||| (b <<< 5) ||| a

/-- YmEnvDef of sound.c: for each of the 16 envelopes, the three primitive
blocks (0 = ENV_GODOWN, 1 = ENV_GOUP, 2 = ENV_DOWN, 3 = ENV_UP). -/
def YmEnvDef (env block : Nat) : Nat :=
  ([[0, 2, 2], [0, 2, 2], [0, 2, 2], [0, 2, 2],
    [1, 2, 2], [1, 2, 2], [1, 2, 2], [1, 2, 2],
    [0, 0, 0], [0, 2, 2], [0, 1, 0], [0, 3, 3],
    [1, 1, 1], [1, 3, 3], [1, 0, 1], [1, 2, 2]].getD env []).getD block 0

/-- Volume at index i of one 32-entry block, as built by YM2149_EnvBuild:
ENV_GODOWN starts at 31 with increment -1, so entry i is 31 - i;
ENV_GOUP starts at 0 with increment 1, so entry i is i; ENV_DOWN holds 0
and ENV_UP holds 31. -/
def YmEnvBlockVol (prim i : Nat) : Nat :=
  match prim with
  | 0 => 31 - i
  | 1 => i
  | 2 => 0
  | _ => 31

/-- Entry pos (0 to 95) of envelope env of the YmEnvWaves table built by
YM2149_EnvBuild: block pos / 32, index pos % 32, merged over the three
voices. -/
def YmEnvWaves (env pos : Nat) : Nat :=
  let v := YmEnvBlockVol (YmEnvDef env (pos / 32)) (pos % 32)
  YM_MERGE_VOICE v v v

/-- The mutable YM2149 emulation state of sound.c (the static variables
stepA..envShape plus the two packed volume words and SoundRegs). -/
structure YmState where
  SoundRegs : Nat → Nat
  stepA : Nat
  stepB : Nat
  stepC : Nat
  posA : Nat
  posB : Nat
  posC : Nat
  mixerTA : Nat
  mixerTB : Nat
  mixerTC : Nat
  mixerNA : Nat
  mixerNB : Nat
  mixerNC : Nat
  noiseStep : Nat
  noisePos : Nat
  currentNoise : Nat
  RndRack : Nat
  envStep : Nat
  envPos : Nat
  envShape : Nat
  EnvMask3Voices : Nat
  Vol3Voices : Nat
  bEnvelopeFreqFlag : Bool

/-- Update one entry of the SoundRegs register file. -/
def setReg (f : Nat → Nat) (i v : Nat) : Nat → Nat :=
  fun j => if j = i then v else f j

/-- Sound_WriteReg of sound.c.  The Uint8 parameter type reduces the data
byte mod 256 on entry.  The bit-complement masks on the 16-bit words
EnvMask3Voices and Vol3Voices are written out within 16 bits:
0xffe0 = not 0x1f, 0xfc1f = not (0x1f shifted left by 5) and
0x83ff = not (0x1f shifted left by 10). -/
def Sound_WriteReg (freq : Nat) (s : YmState) (reg data0 : Nat) : YmState :=
  let data := data0 % 256
  if reg = 0 then
    let regs := setReg s.SoundRegs 0 data
    let st := Ym2149_ToneStepCompute freq (regs 1) (regs 0)
    { s with SoundRegs := regs, stepA := st,
             posA := if st = 0 then 2 ^ 31 else s.posA }
  else if reg = 1 then
    let regs := setReg s.SoundRegs 1 (data &&& 0x0f)
    let st := Ym2149_ToneStepCompute freq (regs 1) (regs 0)
    { s with SoundRegs := regs, stepA := st,
             posA := if st = 0 then 2 ^ 31 else s.posA }
  else if reg = 2 then
    let regs := setReg s.SoundRegs 2 data
    let st := Ym2149_ToneStepCompute freq (regs 3) (regs 2)
    { s with SoundRegs := regs, stepB := st,
             posB := if st = 0 then 2 ^ 31 else s.posB }
  else if reg = 3 then
    let regs := setReg s.SoundRegs 3 (data &&& 0x0f)
    let st := Ym2149_ToneStepCompute freq (regs 3) (regs 2)
    { s with SoundRegs := regs, stepB := st,
             posB := if st = 0 then 2 ^ 31 else s.posB }
  else if reg = 4 then
    let regs := setReg s.SoundRegs 4 data
    let st := Ym2149_ToneStepCompute freq (regs 5) (regs 4)
    { s with SoundRegs := regs, stepC := st,
             posC := if st = 0 then 2 ^ 31 else s.posC }
  else if reg = 5 then
    let regs := setReg s.SoundRegs 5 (data &&& 0x0f)
    let st := Ym2149_ToneStepCompute freq (regs 5) (regs 4)
    { s with SoundRegs := regs, stepC := st,
             posC := if st = 0 then 2 ^ 31 else s.posC }
  else if reg = 6 then
    let regs := setReg s.SoundRegs 6 (data &&& 0x1f)
    let st := Ym2149_NoiseStepCompute freq (regs 6)
    if st = 0 then
      { s with SoundRegs := regs, noiseStep := st,
               noisePos := 0, currentNoise := 0xffff }
    else
      { s with SoundRegs := regs, noiseStep := st }
  else if reg = 7 then
    { s with SoundRegs := setReg s.SoundRegs 7 (data &&& 0x3f),
             mixerTA := if data &&& 0x01 ≠ 0 then 0xffff else 0,
             mixerTB := if data &&& 0x02 ≠ 0 then 0xffff else 0,
             mixerTC := if data &&& 0x04 ≠ 0 then 0xffff else 0,
             mixerNA := if data &&& 0x08 ≠ 0 then 0xffff else 0,
             mixerNB := if data &&& 0x10 ≠ 0 then 0xffff else 0,
             mixerNC := if data &&& 0x20 ≠ 0 then 0xffff else 0 }
  else if reg = 8 then
    let regs := setReg s.SoundRegs 8 (data &&& 0x1f)
    if data &&& 0x10 ≠ 0 then
      { s with SoundRegs := regs,
               EnvMask3Voices := s.EnvMask3Voices ||| 0x1f,
               Vol3Voices := s.Vol3Voices &&& 0xffe0 }
    else
      { s with SoundRegs := regs,
               EnvMask3Voices := s.EnvMask3Voices &&& 0xffe0,
               Vol3Voices := (s.Vol3Voices &&& 0xffe0) ||| YmVolume4to5 (regs 8) }
  else if reg = 9 then
    let regs := setReg s.SoundRegs 9 (data &&& 0x1f)
    if data &&& 0x10 ≠ 0 then
      { s with SoundRegs := regs,
               EnvMask3Voices := s.EnvMask3Voices ||| (0x1f <<< 5),
               Vol3Voices := s.Vol3Voices &&& 0xfc1f }
    else
      { s with SoundRegs := regs,
               EnvMask3Voices := s.EnvMask3Voices &&& 0xfc1f,
               Vol3Voices := (s.Vol3Voices &&& 0xfc1f) ||| (YmVolume4to5 (regs 9) <<< 5) }
  else if reg = 10 then
    let regs := setReg s.SoundRegs 10 (data &&& 0x1f)
    if data &&& 0x10 ≠ 0 then
      { s with SoundRegs := regs,
               EnvMask3Voices := s.EnvMask3Voices ||| (0x1f <<< 10),
               Vol3Voices := s.Vol3Voices &&& 0x83ff }
    else
      { s with SoundRegs := regs,
               EnvMask3Voices := s.EnvMask3Voices &&& 0x83ff,
               Vol3Voices := (s.Vol3Voices &&& 0x83ff) ||| (YmVolume4to5 (regs 10) <<< 10) }
  else if reg = 11 then
    let regs := setReg s.SoundRegs 11 data
    { s with SoundRegs := regs,
             envStep := Ym2149_EnvStepCompute freq (regs 12) (regs 11) }
  else if reg = 12 then
    let regs := setReg s.SoundRegs 12 data
    { s with SoundRegs := regs,
             envStep := Ym2149_EnvStepCompute freq (regs 12) (regs 11) }
  else if reg = 13 then
    let regs := setReg s.SoundRegs 13 (data &&& 0x0f)
    { s with SoundRegs := regs, envPos := 0, envShape := regs 13,
             bEnvelopeFreqFlag := true }
  else s

/-- The all-zero state the static variables of sound.c start from
(EnvMask3Voices = 0 and Vol3Voices = 0 by their initializers). -/
def ymZeroState : YmState where
  SoundRegs := fun _ => 0
  stepA := 0
  stepB := 0
  stepC := 0
  posA := 0
  posB := 0
  posC := 0
  mixerTA := 0
  mixerTB := 0
  mixerTC := 0
  mixerNA := 0
  mixerNB := 0
  mixerNC := 0
  noiseStep := 0
  noisePos := 0
  currentNoise := 0
  RndRack := 0
  envStep := 0
  envPos := 0
  envShape := 0
  EnvMask3Voices := 0
  Vol3Voices := 0
  bEnvelopeFreqFlag := false

/-- Apply a sequence of register writes, each a pair of register index and
data byte, in order. -/
def applyWrites (freq : Nat) (s : YmState) (l : List (Nat × Nat)) : YmState :=
  l.foldl (fun t p => Sound_WriteReg freq t p.1 p.2) s

/-- YM2149_RndCompute of sound.c: from the current LFSR seed, the new seed
(first component, a 32-bit store) and the returned noise word 0 or 0xffff
(second component). -/
def YM2149_RndCompute (rack : Nat) : Nat × Nat :=
  let bit := (rack &&& 1) ^^^ ((rack >>> 2) &&& 1)
  (((rack >>> 1) ||| (bit <<< 16)) % 2 ^ 32, if bit ≠ 0 then 0 else 0xffff)

/-- The envelope-position advance at the end of YM2149_NextSample: add the
envelope step into the 32-bit accumulator; if the result passed the end of
the third 32-entry block, subtract two blocks of phase. -/
def envPosUpdate (envStep envPos : Nat) : Nat :=
  let p := (envPos + envStep) % 2 ^ 32
  if (3 * 32) <<< 24 ≤ p then p - ((2 * 32) <<< 24) else p

/-- The combined three-voice volume index Tone3Voices computed by
YM2149_NextSample and used to index ymout5: the noise update, the envelope
table fetch masked by EnvMask3Voices, the three per-voice output gates
(sign bit of the tone position, the ymu32 reading of the arithmetic right
shift by 31, combined with the mixer masks and the noise word), and the
final combination with the fixed-volume word. -/
def YM2149_NextSample_ToneIndex (s : YmState) : Nat :=
  let bn := if s.noisePos &&& 0xffff0000 ≠ 0
            then (s.currentNoise ^^^ (YM2149_RndCompute s.RndRack).2) % 2 ^ 32
            else s.currentNoise
  let Env3Voices := YmEnvWaves s.envShape (s.envPos >>> 24) &&& s.EnvMask3Voices
  let btA := ((if 2 ^ 31 ≤ s.posA then 0xffffffff else 0) ||| s.mixerTA) &&& (bn ||| s.mixerNA)
  let btB := ((if 2 ^ 31 ≤ s.posB then 0xffffffff else 0) ||| s.mixerTB) &&& (bn ||| s.mixerNB)
  let btC := ((if 2 ^ 31 ≤ s.posC then 0xffffffff else 0) ||| s.mixerTC) &&& (bn ||| s.mixerNC)
  let t := (btA &&& 0x1f) ||| ((btB &&& 0x1f) <<< 5) ||| ((btC &&& 0x1f) <<< 10)
  t &&& (Env3Voices ||| s.Vol3Voices)

/-- Result of Sound_SetSamplesPassed: the sample count stored into
nSamplesToGenerate and the value stored back into the sound cycle
counter. -/
structure SchedulerResult where
  nSamplesToGenerate : Int
  nSoundCycles : Int
deriving DecidableEq, Repr

/-- Sound_SetSamplesPassed of sound.c over its C int variables: compute the
sample count from the elapsed sound cycles, clamp it to one frame, convert
that frame-clamped count back to cycles and subtract them from the
counter, then clamp the count to the room left in the ring buffer. -/
def Sound_SetSamplesPassed (cyclesPerFrame samplesPerFrame mixBufferSize
    soundCycles0 generatedSamples : Int) : SchedulerResult :=
  let n1 := Int.tdiv (soundCycles0 * samplesPerFrame) cyclesPerFrame
  let n2 := if n1 > samplesPerFrame then samplesPerFrame else n1
  let sampleCycles := Int.tdiv (n2 * cyclesPerFrame) samplesPerFrame
  let soundCycles := soundCycles0 - sampleCycles
  let n3 := if n2 > mixBufferSize - generatedSamples then
              (if mixBufferSize - generatedSamples < 0 then 0
               else mixBufferSize - generatedSamples)
            else n2
  ⟨n3, soundCycles⟩

/-- Modelled from the spec: File_DoesFileExtensionMatch lives in file.c,
which is not part of the excerpted source; the spec only requires that a
filename matches a recording-format extension, read as a case-insensitive
suffix test. -/
def File_DoesFileExtensionMatch (name ext : List Char) : Bool :=
  List.isSuffixOf (ext.map Char.toLower) (name.map Char.toLower)

/-- Sound_BeginRecording of sound.c.  The filename is an optional character
list (none embeds a NULL pointer).  The two recording collaborators
YMFormat_BeginRecording and WAVFormat_OpenFile are external, so their
results are parameters; the body reads and writes no generator or buffer
state, which the embedding records by passing the YmState through
unchanged. -/
def Sound_BeginRecording (s : YmState) (name : Option (List Char))
    (ymResult wavResult : Bool) : Bool × YmState :=
  match name with
  | none => (false, s)
  | some f =>
    if f.length ≤ 3 then (false, s)
    else if File_DoesFileExtensionMatch f ['.', 'y', 'm'] then (ymResult, s)
    else if File_DoesFileExtensionMatch f ['.', 'w', 'a', 'v'] then (wavResult, s)
    else (false, s)

/-- Mask selecting the 5-bit field of voice v (0, 1 or 2) inside the packed
words EnvMask3Voices and Vol3Voices, matching YM_MASK_A, YM_MASK_B and
YM_MASK_C of sound.c. -/
def fieldMask (v : Nat) : Nat := 0x1f <<< (5 * v)

/-- Per-voice exclusivity of the two packed volume words: for each voice at
most one of its envelope-mask field and fixed-volume field is nonzero. -/
def voiceExclusive (s : YmState) : Prop :=
  ∀ v, v < 3 → s.EnvMask3Voices &&& fieldMask v = 0 ∨ s.Vol3Voices &&& fieldMask v = 0

/-! Generic helper lemmas about Nat bitwise operations and division. -/

/-- Bitwise and distributes over bitwise or from the right. -/
theorem or_and_distrib_nat (a b c : Nat) :
    (a ||| b) &&& c = (a &&& c) ||| (b &&& c) := by
  rw [Nat.and_comm _ c, Nat.and_comm a c, Nat.and_comm b c, Nat.and_or_distrib_left]

/-- A value below 2 ^ k shares no bits with anything shifted left by k. -/
theorem and_shift_eq_zero_of_lt {a k : Nat} (m : Nat) (h : a < 2 ^ k) :
    a &&& (m <<< k) = 0 := by
  apply Nat.eq_of_testBit_eq
  intro i
  simp only [Nat.testBit_and, Nat.testBit_shiftLeft, Nat.zero_testBit]
  by_cases hik : k ≤ i
  · have hlt : a < 2 ^ i := lt_of_lt_of_le h (Nat.pow_le_pow_right (by omega) hik)
    simp [Nat.testBit_lt_two_pow hlt]
  · simp [hik]

/-- Symmetric form of and_shift_eq_zero_of_lt. -/
theorem shift_and_eq_zero_of_lt {m k : Nat} (a : Nat) (h : m < 2 ^ k) :
    (a <<< k) &&& m = 0 := by
  rw [Nat.and_comm]
  exact and_shift_eq_zero_of_lt a h

/-- Oring a mask in and then extracting with the same mask yields the mask. -/
theorem or_mask_absorb (a m : Nat) : (a ||| m) &&& m = m := by
  apply Nat.eq_of_testBit_eq
  intro i
  simp only [Nat.testBit_and, Nat.testBit_or]
  cases ha : a.testBit i <;> cases hm : m.testBit i <;> rfl

/-- Oring in a mask disjoint from the extraction mask changes nothing. -/
theorem or_and_eq_of_disjoint {m c : Nat} (a : Nat) (h : m &&& c = 0) :
    (a ||| m) &&& c = a &&& c := by
  rw [or_and_distrib_nat, h, Nat.or_zero]

/-- Shifting left commutes with bitwise and. -/
theorem shiftLeft_and_shiftLeft (x y k : Nat) :
    (x <<< k) &&& (y <<< k) = (x &&& y) <<< k := by
  apply Nat.eq_of_testBit_eq
  intro i
  simp only [Nat.testBit_and, Nat.testBit_shiftLeft]
  by_cases hik : k ≤ i <;> simp [hik]

/-- A five-bit value is fixed by the five-bit mask. -/
theorem and_31_of_lt {x : Nat} (h : x < 32) : x &&& 31 = x := by
  have h2 : x &&& 2 ^ 5 - 1 = x := Nat.and_pow_two_sub_one_of_lt_two_pow (by norm_num [h])
  norm_num at h2
  exact h2

/-- Strict antitonicity of the step quotient: with room to spare in the
numerator, a strictly larger period gives a strictly smaller quotient. -/
theorem div_strict_anti {N p q f : Nat} (hf : 0 < f) (hpq : p < q) (hp : 0 < p)
    (hN : p * (q * f) ≤ N) : N / (q * f) < N / (p * f) := by
  have hqf : 0 < q * f := Nat.mul_pos (lt_trans hp hpq) hf
  have hpf : 0 < p * f := Nat.mul_pos hp hf
  have hd : p ≤ N / (q * f) := (Nat.le_div_iff_mul_le hqf).2 hN
  have key : (N / (q * f) + 1) * (p * f) ≤ N := by
    have h1 : (N / (q * f) + 1) * (p * f) = N / (q * f) * (p * f) + p * f := by ring
    have h2 : p * f ≤ N / (q * f) * f := mul_le_mul_right' hd f
    have h3 : N / (q * f) * (p * f) + N / (q * f) * f = N / (q * f) * ((p + 1) * f) := by
      ring
    have h4 : N / (q * f) * ((p + 1) * f) ≤ N / (q * f) * (q * f) :=
      mul_le_mul_left' (mul_le_mul_right' hpq f) _
    have h5 : N / (q * f) * (q * f) ≤ N := Nat.div_mul_le_self N (q * f)
    omega
  have hfin : N / (q * f) + 1 ≤ N / (p * f) := (Nat.le_div_iff_mul_le hpf).2 key
  omega

/-- Every entry of the YmVolume4to5 table is a five-bit value. -/
theorem ymVolume4to5_lt (v : Nat) : YmVolume4to5 v < 32 := by
  by_cases h : v < 16
  · interval_cases v <;> decide
  · unfold YmVolume4to5
    rw [List.getD_eq_default]
    · decide
    · simp only [List.length_cons, List.length_nil]
      omega

/-! Claim C8: shape of the 4-bit to 5-bit fixed-volume expansion table. -/

/-- C8: the fixed-volume expansion table YmVolume4to5 maps 0 to 0 and 15 to
31 and is strictly monotonically increasing over all 16 inputs. -/
theorem ymVolume4to5_strict_mono :
    YmVolume4to5 0 = 0 ∧ YmVolume4to5 15 = 31 ∧
    ∀ j, j < 16 → ∀ i, i < j → YmVolume4to5 i < YmVolume4to5 j := by
  refine ⟨rfl, rfl, ?_⟩
  decide

/-- Witness for C8 at the concrete pair 0 < 15. -/
theorem ymVolume4to5_strict_mono_witness :
    YmVolume4to5 0 < YmVolume4to5 15 :=
  ymVolume4to5_strict_mono.2.2 15 (by decide) 0 (by decide)

/-! Claim C2: the envelope step for period 0 relative to period 1. -/

/-- C2 as stated is false: at the usual 44100 Hz replay frequency the
envelope step for period 0 (190217868) is not half the period-1 step
(95108934 / 2 = 47554467); dividing by half the divisor doubles the
quotient instead of halving it. -/
theorem envStep_period0_not_half :
    Ym2149_EnvStepCompute 44100 0 0 ≠ Ym2149_EnvStepCompute 44100 0 1 / 2 := by
  decide

/-- C2 amended: period 0 behaves as an effective period of one half, so for
every replay frequency of at least 1954 Hz the period-0 envelope step is
approximately double the period-1 step (exactly its quotient relation
2 * step1 ≤ step0 ≤ 2 * step1 + 1), not half of it. -/
theorem envStep_period0_double (freq : Nat) (hf : 1954 ≤ freq) :
    2 * Ym2149_EnvStepCompute freq 0 1 ≤ Ym2149_EnvStepCompute freq 0 0 ∧
    Ym2149_EnvStepCompute freq 0 0 ≤ 2 * Ym2149_EnvStepCompute freq 0 1 + 1 := by
  have hfpos : 0 < freq := by omega
  have e0 : Ym2149_EnvStepCompute freq 0 0
      = 33554432000000 / (4 * freq) % 2 ^ 32 := by
    unfold Ym2149_EnvStepCompute envPeriod YM_ATARI_CLOCK
    simp only [Nat.shiftLeft_eq]
    norm_num
  have e1 : Ym2149_EnvStepCompute freq 0 1
      = 33554432000000 / (8 * freq) % 2 ^ 32 := by
    unfold Ym2149_EnvStepCompute envPeriod YM_ATARI_CLOCK
    simp only [Nat.shiftLeft_eq]
    norm_num
  have h4 : 0 < 4 * freq := by omega
  have hlt0 : 33554432000000 / (4 * freq) < 2 ^ 32 := by
    rw [Nat.div_lt_iff_lt_mul h4]
    calc (33554432000000 : Nat) < 2 ^ 32 * (4 * 1954) := by norm_num
    _ ≤ 2 ^ 32 * (4 * freq) := by
      apply mul_le_mul_left'
      omega
  have hlt1 : 33554432000000 / (8 * freq) < 2 ^ 32 := by
    have : 33554432000000 / (8 * freq) ≤ 33554432000000 / (4 * freq) :=
      Nat.div_le_div_left (by omega) h4
    omega
  rw [e0, e1, Nat.mod_eq_of_lt hlt0, Nat.mod_eq_of_lt hlt1]
  have hsplit : 33554432000000 / (8 * freq) = 33554432000000 / (4 * freq) / 2 := by
    rw [Nat.div_div_eq_div_mul]
    congr 1
    ring
  rw [hsplit]
  omega

/-- Witness for C2 amended at 44100 Hz. -/
theorem envStep_period0_double_witness :
    2 * Ym2149_EnvStepCompute 44100 0 1 ≤ Ym2149_EnvStepCompute 44100 0 0 :=
  (envStep_period0_double 44100 (by decide)).1

/-! Claim C6: the noise period floor and the register-6 write. -/

/-- C6: for noise periods below 3 the computed noise step is 0 and the
register-6 write resets the noise phase to 0 and forces the noise level to
0xffff; for periods of at least 3 the computed step is strictly positive
(for any replay frequency between 1 and 200000 Hz). -/
theorem noiseStep_floor (freq : Nat) (h1 : 0 < freq) (h2 : freq ≤ 200000) :
    (∀ r, noisePeriod r < 3 → Ym2149_NoiseStepCompute freq r = 0) ∧
    (∀ r, 3 ≤ noisePeriod r → 0 < Ym2149_NoiseStepCompute freq r) ∧
    (∀ s data, data % 256 &&& 0x1f < 3 →
      (Sound_WriteReg freq s 6 data).noiseStep = 0 ∧
      (Sound_WriteReg freq s 6 data).noisePos = 0 ∧
      (Sound_WriteReg freq s 6 data).currentNoise = 0xffff) := by
  have hzero : ∀ r, noisePeriod r < 3 → Ym2149_NoiseStepCompute freq r = 0 := by
    intro r hr
    unfold Ym2149_NoiseStepCompute
    rw [if_pos hr]
  refine ⟨hzero, ?_, ?_⟩
  · intro r hr
    have hub : noisePeriod r ≤ 31 := Nat.and_le_right
    unfold Ym2149_NoiseStepCompute
    rw [if_neg (by omega)]
    have hN : YM_ATARI_CLOCK <<< (16 - 1 - 3) = 8192000000 := by decide
    rw [hN]
    have hden : 0 < noisePeriod r * freq := Nat.mul_pos (by omega) h1
    have hle : noisePeriod r * freq ≤ 8192000000 := by
      calc noisePeriod r * freq ≤ 31 * 200000 := Nat.mul_le_mul hub h2
      _ ≤ 8192000000 := by norm_num
    have hpos : 0 < 8192000000 / (noisePeriod r * freq) := Nat.div_pos hle hden
    have hlt : 8192000000 / (noisePeriod r * freq) < 2 ^ 32 := by
      have h3 : 3 ≤ noisePeriod r * freq := by
        calc 3 = 3 * 1 := by norm_num
        _ ≤ noisePeriod r * freq := Nat.mul_le_mul hr h1
      have hmono : (8192000000 : Nat) / (noisePeriod r * freq) ≤ 8192000000 / 3 :=
        Nat.div_le_div_left h3 (by norm_num)
      calc 8192000000 / (noisePeriod r * freq) ≤ 8192000000 / 3 := hmono
      _ < 2 ^ 32 := by norm_num
    rw [Nat.mod_eq_of_lt hlt]
    exact hpos
  · intro s data hdata
    have hper : noisePeriod (data % 256 &&& 0x1f) = data % 256 &&& 0x1f := by
      unfold noisePeriod
      rw [Nat.and_assoc, Nat.and_self]
    have hstep : Ym2149_NoiseStepCompute freq (data % 256 &&& 0x1f) = 0 := by
      apply hzero
      rw [hper]
      exact hdata
    unfold Sound_WriteReg
    norm_num [setReg, hstep]

/-! Claim C5: the envelope accumulator wrap. -/

/-- For any replay frequency of at least 7813 Hz, every envelope step the
step computation can produce fits in two blocks of phase (at most
64 shifted left by 24). -/
theorem envStepCompute_le_two_blocks (freq rH rL : Nat) (hf : 7813 ≤ freq) :
    Ym2149_EnvStepCompute freq rH rL ≤ (2 * 32) <<< 24 := by
  simp only [Ym2149_EnvStepCompute]
  have hconst : ((2 * 32) <<< 24 : Nat) = 1073741824 := by decide
  have hbound : ∀ d : Nat, 31252 ≤ d →
      (YM_ATARI_CLOCK <<< 24) / d % 2 ^ 32 ≤ 1073741824 := by
    intro d hd
    have hN : (YM_ATARI_CLOCK <<< 24 : Nat) = 33554432000000 := by decide
    rw [hN]
    calc 33554432000000 / d % 2 ^ 32 ≤ 33554432000000 / d := Nat.mod_le _ _
    _ ≤ 33554432000000 / 31252 := Nat.div_le_div_left hd (by norm_num)
    _ ≤ 1073741824 := by norm_num
  rw [hconst]
  by_cases hper : 0 < envPeriod rH rL
  · rw [if_pos hper]
    apply hbound
    have : 8 * 1 * 7813 ≤ 8 * envPeriod rH rL * freq := by
      apply Nat.mul_le_mul
      · apply Nat.mul_le_mul
        · exact le_refl 8
        · omega
      · exact hf
    omega
  · rw [if_neg hper]
    apply hbound
    have h8 : 8 * 1 / 2 * freq = 4 * freq := by norm_num
    omega

/-- C5: with any envelope step reachable from the step computation (replay
frequency at least 7813 Hz, which covers every realistic rate) and the
accumulator inside the 96-entry range, one sample advance keeps the
accumulator inside the range; whenever the advance passes the end of the
third block, exactly two blocks of phase (64 shifted left by 24) are
subtracted and the accumulator lands in the second or third block
(integer position 32 to 95); and once the accumulator has reached block 2
it never returns below it, so the first block never repeats. -/
theorem envPos_wrap_invariant (freq rH rL pos : Nat) (hf : 7813 ≤ freq)
    (hpos : pos < (3 * 32) <<< 24) :
    envPosUpdate (Ym2149_EnvStepCompute freq rH rL) pos < (3 * 32) <<< 24 ∧
    ((3 * 32) <<< 24 ≤ pos + Ym2149_EnvStepCompute freq rH rL →
      envPosUpdate (Ym2149_EnvStepCompute freq rH rL) pos
        = pos + Ym2149_EnvStepCompute freq rH rL - (2 * 32) <<< 24 ∧
      (1 * 32) <<< 24 ≤ envPosUpdate (Ym2149_EnvStepCompute freq rH rL) pos) ∧
    ((1 * 32) <<< 24 ≤ pos →
      (1 * 32) <<< 24 ≤ envPosUpdate (Ym2149_EnvStepCompute freq rH rL) pos) := by
  have hstep := envStepCompute_le_two_blocks freq rH rL hf
  have c3 : ((3 * 32) <<< 24 : Nat) = 1610612736 := by decide
  have c2 : ((2 * 32) <<< 24 : Nat) = 1073741824 := by decide
  have c1 : ((1 * 32) <<< 24 : Nat) = 536870912 := by decide
  have c32 : (2 ^ 32 : Nat) = 4294967296 := by decide
  rw [c3, c2, c1] at *
  have hmod : (pos + Ym2149_EnvStepCompute freq rH rL) % 2 ^ 32
      = pos + Ym2149_EnvStepCompute freq rH rL := by
    apply Nat.mod_eq_of_lt
    omega
  simp only [envPosUpdate]
  rw [hmod]
  split_ifs with hw
  · refine ⟨by omega, fun _ => ⟨rfl, by omega⟩, fun h => by omega⟩
  · refine ⟨by omega, fun h => absurd h hw, fun h => by omega⟩

/-- Witness for C5 at 44100 Hz, envelope period 0, accumulator in block 3. -/
theorem envPos_wrap_invariant_witness :
    envPosUpdate (Ym2149_EnvStepCompute 44100 0 0) (95 * 2 ^ 24) < (3 * 32) <<< 24 :=
  (envPos_wrap_invariant 44100 0 0 (95 * 2 ^ 24) (by decide) (by decide)).1

/-! Claim C1: the tone step floor and its monotonicity. -/

/-- C1 as stated is false: the step value is returned through the 32-bit
ymu32 type, and at replay frequency 11025 Hz the 64-bit quotient for
period 11 exceeds 2 ^ 32 while the one for period 12 does not, so the
returned step for period 11 is smaller than the one for period 12 even
though both periods exceed 5. -/
theorem toneStep_not_monotone_at_11025 :
    5 < tonePeriod 0 11 ∧ tonePeriod 0 11 < tonePeriod 0 12 ∧
    Ym2149_ToneStepCompute 11025 0 11 < Ym2149_ToneStepCompute 11025 0 12 := by
  decide

/-- C1 amended: for a fixed replay frequency between 20834 Hz and 500000 Hz
(so that the 64-bit quotient fits the 32-bit return type for every period
above the floor; all realistic rates, 44100 Hz included, qualify), a tone
period of at most 5 gives step 0, and above 5 the returned step is
strictly positive and strictly decreasing in the period. -/
theorem toneStep_pinned_and_monotone (freq rH1 rL1 rH2 rL2 : Nat)
    (hf1 : 20834 ≤ freq) (hf2 : freq ≤ 500000)
    (hL1 : rL1 < 256) (hL2 : rL2 < 256) :
    (tonePeriod rH1 rL1 ≤ 5 → Ym2149_ToneStepCompute freq rH1 rL1 = 0) ∧
    (5 < tonePeriod rH1 rL1 → 0 < Ym2149_ToneStepCompute freq rH1 rL1) ∧
    (5 < tonePeriod rH1 rL1 → tonePeriod rH1 rL1 < tonePeriod rH2 rL2 →
      Ym2149_ToneStepCompute freq rH2 rL2 < Ym2149_ToneStepCompute freq rH1 rL1) := by
  have hN : (YM_ATARI_CLOCK <<< (15 + 16 - 3) : Nat) = 536870912000000 := by decide
  have hpbound : ∀ rH rL : Nat, rL < 256 → tonePeriod rH rL ≤ 4095 := by
    intro rH rL hL
    unfold tonePeriod
    have h15 : rH &&& 15 ≤ 15 := Nat.and_le_right
    rw [Nat.shiftLeft_eq]
    omega
  have hmodfree : ∀ p : Nat, 5 < p → p ≤ 4095 →
      536870912000000 / (p * freq) % 2 ^ 32 = 536870912000000 / (p * freq) ∧
      0 < 536870912000000 / (p * freq) := by
    intro p hp5 hp
    have hpf : 125004 ≤ p * freq := by
      calc (125004 : Nat) = 6 * 20834 := by norm_num
      _ ≤ p * freq := Nat.mul_le_mul (by omega) hf1
    have hup : p * freq ≤ 2047500000 := by
      calc p * freq ≤ 4095 * 500000 := Nat.mul_le_mul hp hf2
      _ = 2047500000 := by norm_num
    have hlt : 536870912000000 / (p * freq) < 2 ^ 32 := by
      rw [Nat.div_lt_iff_lt_mul (by omega)]
      calc (536870912000000 : Nat) < 2 ^ 32 * 125004 := by norm_num
      _ ≤ 2 ^ 32 * (p * freq) := mul_le_mul_left' hpf _
    refine ⟨Nat.mod_eq_of_lt hlt, Nat.div_pos (by omega) (by omega)⟩
  refine ⟨?_, ?_, ?_⟩
  · intro h5
    unfold Ym2149_ToneStepCompute
    rw [if_pos h5]
  · intro h5
    have h := hmodfree _ h5 (hpbound rH1 rL1 hL1)
    unfold Ym2149_ToneStepCompute
    rw [if_neg (by omega), hN, h.1]
    exact h.2
  · intro h5 hlt
    have h5q : 5 < tonePeriod rH2 rL2 := by omega
    unfold Ym2149_ToneStepCompute
    rw [if_neg (by omega), if_neg (by omega), hN]
    rw [(hmodfree _ h5 (hpbound rH1 rL1 hL1)).1,
        (hmodfree _ h5q (hpbound rH2 rL2 hL2)).1]
    apply div_strict_anti (by omega) hlt (by omega)
    calc tonePeriod rH1 rL1 * (tonePeriod rH2 rL2 * freq)
        ≤ 4094 * (4095 * 500000) := by
          apply Nat.mul_le_mul
          · have := hpbound rH2 rL2 hL2
            omega
          · exact Nat.mul_le_mul (hpbound rH2 rL2 hL2) hf2
    _ ≤ 536870912000000 := by norm_num

/-- Witness for C1 amended at 44100 Hz with periods 6 and 7. -/
theorem toneStep_pinned_and_monotone_witness :
    0 < Ym2149_ToneStepCompute 44100 0 6 ∧
    Ym2149_ToneStepCompute 44100 0 7 < Ym2149_ToneStepCompute 44100 0 6 :=
  ⟨(toneStep_pinned_and_monotone 44100 0 6 0 7 (by decide) (by decide)
      (by decide) (by decide)).2.1 (by decide),
   (toneStep_pinned_and_monotone 44100 0 6 0 7 (by decide) (by decide)
      (by decide) (by decide)).2.2 (by decide) (by decide)⟩

/-! Claim C10: the DAC table index computed by YM2149_NextSample. -/

/-- C10: the combined volume index YM2149_NextSample looks up in ymout5 is
always below 32 * 32 * 32 for every state, and every entry of the
envelope table YmEnvWaves occupies only those 15 bits, so the lookup is
always in bounds. -/
theorem nextSample_toneIndex_inBounds :
    (∀ s : YmState, YM2149_NextSample_ToneIndex s < 32 * 32 * 32) ∧
    (∀ env pos, YmEnvWaves env pos < 32 * 32 * 32) := by
  have hvol : ∀ prim i : Nat, YmEnvBlockVol prim (i % 32) ≤ 31 := by
    intro prim i
    have hi : i % 32 < 32 := Nat.mod_lt _ (by norm_num)
    match prim with
    | 0 => exact Nat.sub_le 31 _
    | 1 => exact Nat.lt_succ_iff.mp hi
    | 2 => exact Nat.zero_le 31
    | n + 3 => exact le_refl 31
  have hmerge : ∀ c b a : Nat, c ≤ 31 → b ≤ 31 → a ≤ 31 →
      YM_MERGE_VOICE c b a < 32 * 32 * 32 := by
    intro c b a hc hb ha
    unfold YM_MERGE_VOICE
    have h15 : (32 * 32 * 32 : Nat) = 2 ^ 15 := by norm_num
    rw [h15]
    apply Nat.or_lt_two_pow
    apply Nat.or_lt_two_pow
    · rw [Nat.shiftLeft_eq]
      omega
    · rw [Nat.shiftLeft_eq]
      omega
    · omega
  have henv : ∀ env pos, YmEnvWaves env pos < 32 * 32 * 32 := by
    intro env pos
    unfold YmEnvWaves
    exact hmerge _ _ _ (hvol _ _) (hvol _ _) (hvol _ _)
  have hpack : ∀ x y z : Nat,
      (x &&& 0x1f) ||| ((y &&& 0x1f) <<< 5) ||| ((z &&& 0x1f) <<< 10)
        < 32 * 32 * 32 := by
    intro x y z
    have h15 : (32 * 32 * 32 : Nat) = 2 ^ 15 := by norm_num
    have hx : x &&& 0x1f ≤ 0x1f := Nat.and_le_right
    have hy : y &&& 0x1f ≤ 0x1f := Nat.and_le_right
    have hz : z &&& 0x1f ≤ 0x1f := Nat.and_le_right
    rw [h15]
    apply Nat.or_lt_two_pow
    apply Nat.or_lt_two_pow
    · omega
    · rw [Nat.shiftLeft_eq]
      omega
    · rw [Nat.shiftLeft_eq]
      omega
  refine ⟨?_, henv⟩
  intro s
  simp only [YM2149_NextSample_ToneIndex]
  exact lt_of_le_of_lt Nat.and_le_left (hpack _ _ _)

/-! Claims C3 and C4: the frame scheduler. -/

/-- C3 as stated is false: with a full frame of elapsed cycles and a full
ring buffer, the final (ring-buffer-clamped) sample count is 0, yet the
cycle counter is set to 0, not to the elapsed 160256 cycles that
converting the final count back would leave; the code converts the
frame-clamped count computed before the ring-buffer clamp. -/
theorem setSamplesPassed_subtracts_preclamp_cycles :
    (Sound_SetSamplesPassed 160256 882 8192 160256 8192).nSoundCycles ≠
      160256 - Int.tdiv
        ((Sound_SetSamplesPassed 160256 882 8192 160256 8192).nSamplesToGenerate
          * 160256) 882 := by
  decide

/-- C3 amended: the sample count is the elapsed cycles times samples per
frame over cycles per frame, clamped to one frame; the cycles converted
back and subtracted correspond to that frame-clamped count, computed
before the ring-buffer clamp, and the subtraction never overshoots, so
the truncation remainder stays in the counter for the next frame (while
samples dropped by the ring-buffer clamp do not restore their cycles). -/
theorem setSamplesPassed_cycle_carry (cpf spf mix cyc gen : Int)
    (hC : 0 < cpf) (hS : 0 < spf) (hcyc : 0 ≤ cyc) :
    (Sound_SetSamplesPassed cpf spf mix cyc gen).nSoundCycles
      = cyc - Int.tdiv (min (Int.tdiv (cyc * spf) cpf) spf * cpf) spf ∧
    0 ≤ (Sound_SetSamplesPassed cpf spf mix cyc gen).nSoundCycles ∧
    (Sound_SetSamplesPassed cpf spf mix cyc gen).nSoundCycles ≤ cyc := by
  have hn1 : 0 ≤ Int.tdiv (cyc * spf) cpf :=
    Int.tdiv_nonneg (mul_nonneg hcyc hS.le) hC.le
  have hmineq : (if Int.tdiv (cyc * spf) cpf > spf then spf
      else Int.tdiv (cyc * spf) cpf) = min (Int.tdiv (cyc * spf) cpf) spf := by
    split_ifs <;> omega
  have hq0 : 0 ≤ min (Int.tdiv (cyc * spf) cpf) spf := by omega
  have hqC : min (Int.tdiv (cyc * spf) cpf) spf * cpf ≤ cyc * spf := by
    have h1 : min (Int.tdiv (cyc * spf) cpf) spf * cpf
        ≤ Int.tdiv (cyc * spf) cpf * cpf := by
      apply mul_le_mul_of_nonneg_right _ hC.le
      omega
    have h2 : Int.tdiv (cyc * spf) cpf * cpf ≤ cyc * spf := by
      rw [Int.tdiv_eq_ediv (mul_nonneg hcyc hS.le) hC.le]
      exact Int.ediv_mul_le _ (ne_of_gt hC)
    omega
  have hsub : Int.tdiv (min (Int.tdiv (cyc * spf) cpf) spf * cpf) spf ≤ cyc := by
    rw [Int.tdiv_eq_ediv (mul_nonneg hq0 hC.le) hS.le]
    calc min (Int.tdiv (cyc * spf) cpf) spf * cpf / spf ≤ cyc * spf / spf :=
      Int.ediv_le_ediv hS hqC
    _ = cyc := Int.mul_ediv_cancel cyc (ne_of_gt hS)
  have hsub0 : 0 ≤ Int.tdiv (min (Int.tdiv (cyc * spf) cpf) spf * cpf) spf :=
    Int.tdiv_nonneg (mul_nonneg hq0 hC.le) hS.le
  simp only [Sound_SetSamplesPassed]
  rw [hmineq]
  refine ⟨rfl, by omega, by omega⟩

/-- Witness for C3 amended with a partial frame of elapsed cycles. -/
theorem setSamplesPassed_cycle_carry_witness :
    0 ≤ (Sound_SetSamplesPassed 160256 882 8192 160000 0).nSoundCycles ∧
    (Sound_SetSamplesPassed 160256 882 8192 160000 0).nSoundCycles ≤ 160000 :=
  ⟨(setSamplesPassed_cycle_carry 160256 882 8192 160000 0 (by decide) (by decide)
      (by decide)).2.1,
   (setSamplesPassed_cycle_carry 160256 882 8192 160000 0 (by decide) (by decide)
      (by decide)).2.2⟩

/-- C4 as stated is false for unrestricted nGeneratedSamples: if the
generated-sample count already exceeds the buffer capacity, the clamped
result is 0, which is greater than the negative room
MIXBUFFER_SIZE - nGeneratedSamples. -/
theorem setSamplesPassed_room_violation :
    ¬ ((Sound_SetSamplesPassed 160256 882 8192 0 8193).nSamplesToGenerate
        ≤ 8192 - 8193) := by
  decide

/-- C4 amended: whenever the unconsumed count does not already exceed the
buffer capacity (the situation the scheduler itself maintains), the
scheduled sample count is never negative and never exceeds the room
MIXBUFFER_SIZE - nGeneratedSamples, so advancing the write cursor keeps
the generated count within capacity. -/
theorem setSamplesPassed_clamps_to_room (cpf spf mix cyc gen : Int)
    (hC : 0 < cpf) (hS : 0 < spf) (hcyc : 0 ≤ cyc) (hgen : gen ≤ mix) :
    0 ≤ (Sound_SetSamplesPassed cpf spf mix cyc gen).nSamplesToGenerate ∧
    (Sound_SetSamplesPassed cpf spf mix cyc gen).nSamplesToGenerate ≤ mix - gen ∧
    gen + (Sound_SetSamplesPassed cpf spf mix cyc gen).nSamplesToGenerate ≤ mix := by
  have hn1 : 0 ≤ Int.tdiv (cyc * spf) cpf :=
    Int.tdiv_nonneg (mul_nonneg hcyc hS.le) hC.le
  simp only [Sound_SetSamplesPassed]
  split_ifs <;> omega

/-- Witness for C4 amended with a full frame against a nearly full buffer. -/
theorem setSamplesPassed_clamps_to_room_witness :
    0 ≤ (Sound_SetSamplesPassed 160256 882 8192 500000 8000).nSamplesToGenerate ∧
    (Sound_SetSamplesPassed 160256 882 8192 500000 8000).nSamplesToGenerate
      ≤ 8192 - 8000 :=
  ⟨(setSamplesPassed_clamps_to_room 160256 882 8192 500000 8000 (by decide)
      (by decide) (by decide) (by decide)).1,
   (setSamplesPassed_clamps_to_room 160256 882 8192 500000 8000 (by decide)
      (by decide) (by decide) (by decide)).2.1⟩

/-! Claim C7: exclusivity of envelope-mask and fixed-volume fields. -/

/-- Extracting through two nested masks whose combined mask is empty gives 0. -/
theorem and_and_eq_zero {c m : Nat} (a : Nat) (h : c &&& m = 0) :
    (a &&& c) &&& m = 0 := by
  rw [Nat.and_assoc, h, Nat.and_zero]

/-- Extracting through a wider mask that contains the extraction mask keeps it. -/
theorem and_and_eq_keep {c m : Nat} (a : Nat) (h : c &&& m = m) :
    (a &&& c) &&& m = a &&& m := by
  rw [Nat.and_assoc, h]

/-- Extracting the own field after clearing it and oring the new value in
yields exactly the new value. -/
theorem or_tbl_extract {c m t : Nat} (a : Nat) (h1 : c &&& m = 0)
    (h2 : t &&& m = t) : ((a &&& c) ||| t) &&& m = t := by
  rw [or_and_distrib_nat, and_and_eq_zero a h1, Nat.zero_or, h2]

/-- Extracting the field of another voice after clearing the own field and
oring the own value in leaves the other field unchanged. -/
theorem or_tbl_other {c m t : Nat} (a : Nat) (h1 : c &&& m = m)
    (h2 : t &&& m = 0) : ((a &&& c) ||| t) &&& m = a &&& m := by
  rw [or_and_distrib_nat, and_and_eq_keep a h1, h2, Nat.or_zero]

/-- Power-of-two form of the table bound. -/
theorem ymVolume4to5_lt5 (v : Nat) : YmVolume4to5 v < 2 ^ 5 := by
  have := ymVolume4to5_lt v
  omega

/-- The table value is fixed by the five-bit mask. -/
theorem ymVolume4to5_and31 (v : Nat) : YmVolume4to5 v &&& 0x1f = YmVolume4to5 v :=
  and_31_of_lt (ymVolume4to5_lt v)

/-- The register-write function only depends on the low byte of the data,
reflecting its Uint8 parameter type. -/
theorem sound_WriteReg_mod (freq : Nat) (s : YmState) (reg data : Nat) :
    Sound_WriteReg freq s reg data = Sound_WriteReg freq s reg (data % 256) := by
  unfold Sound_WriteReg
  rw [Nat.mod_mod_of_dvd data (dvd_refl 256)]

/-- Writes to registers other than 8, 9 and 10 leave both packed volume
words unchanged. -/
theorem sound_WriteReg_untouched (freq : Nat) (s : YmState) (reg data : Nat)
    (h8 : reg ≠ 8) (h9 : reg ≠ 9) (h10 : reg ≠ 10) :
    (Sound_WriteReg freq s reg data).EnvMask3Voices = s.EnvMask3Voices ∧
    (Sound_WriteReg freq s reg data).Vol3Voices = s.Vol3Voices := by
  rcases reg with _|_|_|_|_|_|_|_|_|_|_|_|_|_|n
  · exact ⟨rfl, rfl⟩
  · exact ⟨rfl, rfl⟩
  · exact ⟨rfl, rfl⟩
  · exact ⟨rfl, rfl⟩
  · exact ⟨rfl, rfl⟩
  · exact ⟨rfl, rfl⟩
  · have h : Sound_WriteReg freq s 6 data
        = if Ym2149_NoiseStepCompute freq
              (setReg s.SoundRegs 6 (data % 256 &&& 0x1f) 6) = 0 then
            { s with SoundRegs := setReg s.SoundRegs 6 (data % 256 &&& 0x1f),
                     noiseStep := Ym2149_NoiseStepCompute freq
                       (setReg s.SoundRegs 6 (data % 256 &&& 0x1f) 6),
                     noisePos := 0, currentNoise := 0xffff }
          else
            { s with SoundRegs := setReg s.SoundRegs 6 (data % 256 &&& 0x1f),
                     noiseStep := Ym2149_NoiseStepCompute freq
                       (setReg s.SoundRegs 6 (data % 256 &&& 0x1f) 6) } := rfl
    rw [h]
    split <;> exact ⟨rfl, rfl⟩
  · exact ⟨rfl, rfl⟩
  · exact absurd rfl h8
  · exact absurd rfl h9
  · exact absurd rfl h10
  · exact ⟨rfl, rfl⟩
  · exact ⟨rfl, rfl⟩
  · exact ⟨rfl, rfl⟩
  · exact ⟨rfl, rfl⟩

/-- Effect of an amplitude-register write (register 8 + v, voice v) on the
two packed words: with bit 4 set the envelope field of voice v is fully
set and its fixed-volume field cleared; with bit 4 clear the envelope
field is cleared and the fixed-volume field receives the expanded 4-bit
volume; the fields of the two other voices never change. -/
theorem sound_WriteReg_amp_effects (freq : Nat) (s : YmState) (v data : Nat)
    (hv : v < 3) (hdata : data < 256) :
    (data &&& 0x10 ≠ 0 →
      (Sound_WriteReg freq s (8 + v) data).EnvMask3Voices &&& fieldMask v
        = fieldMask v ∧
      (Sound_WriteReg freq s (8 + v) data).Vol3Voices &&& fieldMask v = 0) ∧
    (data &&& 0x10 = 0 →
      (Sound_WriteReg freq s (8 + v) data).EnvMask3Voices &&& fieldMask v = 0 ∧
      (Sound_WriteReg freq s (8 + v) data).Vol3Voices &&& fieldMask v
        = YmVolume4to5 (data &&& 0x1f) <<< (5 * v)) ∧
    (∀ w, w < 3 → w ≠ v →
      (Sound_WriteReg freq s (8 + v) data).EnvMask3Voices &&& fieldMask w
        = s.EnvMask3Voices &&& fieldMask w ∧
      (Sound_WriteReg freq s (8 + v) data).Vol3Voices &&& fieldMask w
        = s.Vol3Voices &&& fieldMask w) := by
  have hd : data % 256 = data := Nat.mod_eq_of_lt hdata
  have f0 : fieldMask 0 = 0x1f := by decide
  have f1 : fieldMask 1 = 0x3e0 := by decide
  have f2 : fieldMask 2 = 0x7c00 := by decide
  have e5 : (0x1f : Nat) <<< 5 = 0x3e0 := by decide
  have e10 : (0x1f : Nat) <<< 10 = 0x7c00 := by decide
  have htbl : YmVolume4to5 (data &&& 0x1f) < 32 := ymVolume4to5_lt _
  interval_cases v
  · have hred : Sound_WriteReg freq s (8 + 0) data
        = if data % 256 &&& 0x10 ≠ 0 then
            { s with SoundRegs := setReg s.SoundRegs 8 (data % 256 &&& 0x1f),
                     EnvMask3Voices := s.EnvMask3Voices ||| 0x1f,
                     Vol3Voices := s.Vol3Voices &&& 0xffe0 }
          else
            { s with SoundRegs := setReg s.SoundRegs 8 (data % 256 &&& 0x1f),
                     EnvMask3Voices := s.EnvMask3Voices &&& 0xffe0,
                     Vol3Voices := (s.Vol3Voices &&& 0xffe0)
                       ||| YmVolume4to5 (data % 256 &&& 0x1f) } := rfl
    rw [hd] at hred
    by_cases h10 : data &&& 0x10 ≠ 0
    · rw [hred, if_pos h10]
      refine ⟨fun _ => ⟨?_, ?_⟩, fun hcon => absurd hcon h10, fun w hw hne => ?_⟩
      · show (s.EnvMask3Voices ||| 0x1f) &&& fieldMask 0 = fieldMask 0
        rw [f0]
        exact or_mask_absorb _ _
      · show (s.Vol3Voices &&& 0xffe0) &&& fieldMask 0 = 0
        rw [f0]
        exact and_and_eq_zero _ (by decide)
      · interval_cases w
        · exact absurd rfl hne
        · exact ⟨by rw [f1]; exact or_and_eq_of_disjoint _ (by decide),
                 by rw [f1]; exact and_and_eq_keep _ (by decide)⟩
        · exact ⟨by rw [f2]; exact or_and_eq_of_disjoint _ (by decide),
                 by rw [f2]; exact and_and_eq_keep _ (by decide)⟩
    · have h10e := not_not.mp h10
      rw [hred, if_neg h10]
      refine ⟨fun hcon => absurd h10e hcon, fun _ => ⟨?_, ?_⟩, fun w hw hne => ?_⟩
      · show (s.EnvMask3Voices &&& 0xffe0) &&& fieldMask 0 = 0
        rw [f0]
        exact and_and_eq_zero _ (by decide)
      · show ((s.Vol3Voices &&& 0xffe0) ||| YmVolume4to5 (data &&& 0x1f))
            &&& fieldMask 0 = YmVolume4to5 (data &&& 0x1f) <<< (5 * 0)
        rw [f0, or_tbl_extract _ (by decide) (ymVolume4to5_and31 _)]
        rw [show 5 * 0 = 0 from rfl, Nat.shiftLeft_zero]
      · interval_cases w
        · exact absurd rfl hne
        · refine ⟨by rw [f1]; exact and_and_eq_keep _ (by decide), ?_⟩
          rw [f1]
          apply or_tbl_other _ (by decide)
          rw [show (0x3e0 : Nat) = 0x1f <<< 5 from by decide]
          exact and_shift_eq_zero_of_lt _ (ymVolume4to5_lt5 _)
        · refine ⟨by rw [f2]; exact and_and_eq_keep _ (by decide), ?_⟩
          rw [f2]
          apply or_tbl_other _ (by decide)
          rw [show (0x7c00 : Nat) = 0x1f <<< 10 from by decide]
          apply and_shift_eq_zero_of_lt
          omega
  · have hred : Sound_WriteReg freq s (8 + 1) data
        = if data % 256 &&& 0x10 ≠ 0 then
            { s with SoundRegs := setReg s.SoundRegs 9 (data % 256 &&& 0x1f),
                     EnvMask3Voices := s.EnvMask3Voices ||| (0x1f <<< 5),
                     Vol3Voices := s.Vol3Voices &&& 0xfc1f }
          else
            { s with SoundRegs := setReg s.SoundRegs 9 (data % 256 &&& 0x1f),
                     EnvMask3Voices := s.EnvMask3Voices &&& 0xfc1f,
                     Vol3Voices := (s.Vol3Voices &&& 0xfc1f)
                       ||| (YmVolume4to5 (data % 256 &&& 0x1f) <<< 5) } := rfl
    rw [hd, e5] at hred
    by_cases h10 : data &&& 0x10 ≠ 0
    · rw [hred, if_pos h10]
      refine ⟨fun _ => ⟨?_, ?_⟩, fun hcon => absurd hcon h10, fun w hw hne => ?_⟩
      · show (s.EnvMask3Voices ||| 0x3e0) &&& fieldMask 1 = fieldMask 1
        rw [f1]
        exact or_mask_absorb _ _
      · show (s.Vol3Voices &&& 0xfc1f) &&& fieldMask 1 = 0
        rw [f1]
        exact and_and_eq_zero _ (by decide)
      · interval_cases w
        · exact ⟨by rw [f0]; exact or_and_eq_of_disjoint _ (by decide),
                 by rw [f0]; exact and_and_eq_keep _ (by decide)⟩
        · exact absurd rfl hne
        · exact ⟨by rw [f2]; exact or_and_eq_of_disjoint _ (by decide),
                 by rw [f2]; exact and_and_eq_keep _ (by decide)⟩
    · have h10e := not_not.mp h10
      rw [hred, if_neg h10]
      refine ⟨fun hcon => absurd h10e hcon, fun _ => ⟨?_, ?_⟩, fun w hw hne => ?_⟩
      · show (s.EnvMask3Voices &&& 0xfc1f) &&& fieldMask 1 = 0
        rw [f1]
        exact and_and_eq_zero _ (by decide)
      · show ((s.Vol3Voices &&& 0xfc1f) ||| (YmVolume4to5 (data &&& 0x1f) <<< 5))
            &&& fieldMask 1 = YmVolume4to5 (data &&& 0x1f) <<< (5 * 1)
        rw [f1]
        have h2 : (YmVolume4to5 (data &&& 0x1f) <<< 5) &&& 0x3e0
            = YmVolume4to5 (data &&& 0x1f) <<< 5 := by
          rw [show (0x3e0 : Nat) = 0x1f <<< 5 from by decide,
              shiftLeft_and_shiftLeft, ymVolume4to5_and31]
        rw [or_tbl_extract _ (by decide) h2, show 5 * 1 = 5 from rfl]
      · interval_cases w
        · refine ⟨by rw [f0]; exact and_and_eq_keep _ (by decide), ?_⟩
          rw [f0]
          apply or_tbl_other _ (by decide)
          exact shift_and_eq_zero_of_lt _ (by norm_num)
        · exact absurd rfl hne
        · refine ⟨by rw [f2]; exact and_and_eq_keep _ (by decide), ?_⟩
          rw [f2]
          apply or_tbl_other _ (by decide)
          rw [show (0x7c00 : Nat) = 0x1f <<< 10 from by decide]
          apply and_shift_eq_zero_of_lt
          rw [Nat.shiftLeft_eq]
          omega
  · have hred : Sound_WriteReg freq s (8 + 2) data
        = if data % 256 &&& 0x10 ≠ 0 then
            { s with SoundRegs := setReg s.SoundRegs 10 (data % 256 &&& 0x1f),
                     EnvMask3Voices := s.EnvMask3Voices ||| (0x1f <<< 10),
                     Vol3Voices := s.Vol3Voices &&& 0x83ff }
          else
            { s with SoundRegs := setReg s.SoundRegs 10 (data % 256 &&& 0x1f),
                     EnvMask3Voices := s.EnvMask3Voices &&& 0x83ff,
                     Vol3Voices := (s.Vol3Voices &&& 0x83ff)
                       ||| (YmVolume4to5 (data % 256 &&& 0x1f) <<< 10) } := rfl
    rw [hd, e10] at hred
    by_cases h10 : data &&& 0x10 ≠ 0
    · rw [hred, if_pos h10]
      refine ⟨fun _ => ⟨?_, ?_⟩, fun hcon => absurd hcon h10, fun w hw hne => ?_⟩
      · show (s.EnvMask3Voices ||| 0x7c00) &&& fieldMask 2 = fieldMask 2
        rw [f2]
        exact or_mask_absorb _ _
      · show (s.Vol3Voices &&& 0x83ff) &&& fieldMask 2 = 0
        rw [f2]
        exact and_and_eq_zero _ (by decide)
      · interval_cases w
        · exact ⟨by rw [f0]; exact or_and_eq_of_disjoint _ (by decide),
                 by rw [f0]; exact and_and_eq_keep _ (by decide)⟩
        · exact ⟨by rw [f1]; exact or_and_eq_of_disjoint _ (by decide),
                 by rw [f1]; exact and_and_eq_keep _ (by decide)⟩
        · exact absurd rfl hne
    · have h10e := not_not.mp h10
      rw [hred, if_neg h10]
      refine ⟨fun hcon => absurd h10e hcon, fun _ => ⟨?_, ?_⟩, fun w hw hne => ?_⟩
      · show (s.EnvMask3Voices &&& 0x83ff) &&& fieldMask 2 = 0
        rw [f2]
        exact and_and_eq_zero _ (by decide)
      · show ((s.Vol3Voices &&& 0x83ff) ||| (YmVolume4to5 (data &&& 0x1f) <<< 10))
            &&& fieldMask 2 = YmVolume4to5 (data &&& 0x1f) <<< (5 * 2)
        rw [f2]
        have h2 : (YmVolume4to5 (data &&& 0x1f) <<< 10) &&& 0x7c00
            = YmVolume4to5 (data &&& 0x1f) <<< 10 := by
          rw [show (0x7c00 : Nat) = 0x1f <<< 10 from by decide,
              shiftLeft_and_shiftLeft, ymVolume4to5_and31]
        rw [or_tbl_extract _ (by decide) h2, show 5 * 2 = 10 from rfl]
      · interval_cases w
        · refine ⟨by rw [f0]; exact and_and_eq_keep _ (by decide), ?_⟩
          rw [f0]
          apply or_tbl_other _ (by decide)
          exact shift_and_eq_zero_of_lt _ (by norm_num)
        · refine ⟨by rw [f1]; exact and_and_eq_keep _ (by decide), ?_⟩
          rw [f1]
          apply or_tbl_other _ (by decide)
          exact shift_and_eq_zero_of_lt _ (by norm_num)
        · exact absurd rfl hne

/-- Any single register write preserves per-voice exclusivity of the packed
envelope-mask and fixed-volume words. -/
theorem sound_WriteReg_preserves_exclusive (freq : Nat) (s : YmState)
    (reg data : Nat) (hs : voiceExclusive s) :
    voiceExclusive (Sound_WriteReg freq s reg data) := by
  by_cases hamp : reg = 8 ∨ reg = 9 ∨ reg = 10
  · have hv : reg - 8 < 3 := by rcases hamp with h | h | h <;> omega
    have hreg : reg = 8 + (reg - 8) := by rcases hamp with h | h | h <;> omega
    rw [hreg, sound_WriteReg_mod]
    have heff := sound_WriteReg_amp_effects freq s (reg - 8) (data % 256) hv
      (Nat.mod_lt _ (by norm_num))
    intro w hw
    by_cases hw' : w = reg - 8
    · subst hw'
      by_cases h10 : data % 256 &&& 0x10 ≠ 0
      · right
        exact (heff.1 h10).2
      · left
        exact (heff.2.1 (not_not.mp h10)).1
    · have hother := heff.2.2 w hw hw'
      rw [hother.1, hother.2]
      exact hs w hw
  · push_neg at hamp
    obtain ⟨h8, h9, h10⟩ := hamp
    have hun := sound_WriteReg_untouched freq s reg data h8 h9 h10
    intro w hw
    rw [hun.1, hun.2]
    exact hs w hw

/-- C7: starting from the zero-initialized state, after any sequence of
register writes each voice has at most one of its envelope-mask field and
fixed-volume field nonzero; an amplitude-register write with bit 4 set
sets the envelope-mask bits of that voice and clears its fixed-volume
bits, with bit 4 clear it clears the envelope-mask bits and sets the
fixed-volume bits from the expansion table, and the fields of the other
two voices are unchanged either way. -/
theorem ampRegister_env_vol_exclusive :
    (∀ freq l, voiceExclusive (applyWrites freq ymZeroState l)) ∧
    (∀ freq (s : YmState) v data, v < 3 → data < 256 →
      (data &&& 0x10 ≠ 0 →
        (Sound_WriteReg freq s (8 + v) data).EnvMask3Voices &&& fieldMask v
          = fieldMask v ∧
        (Sound_WriteReg freq s (8 + v) data).Vol3Voices &&& fieldMask v = 0) ∧
      (data &&& 0x10 = 0 →
        (Sound_WriteReg freq s (8 + v) data).EnvMask3Voices &&& fieldMask v = 0 ∧
        (Sound_WriteReg freq s (8 + v) data).Vol3Voices &&& fieldMask v
          = YmVolume4to5 (data &&& 0x1f) <<< (5 * v)) ∧
      (∀ w, w < 3 → w ≠ v →
        (Sound_WriteReg freq s (8 + v) data).EnvMask3Voices &&& fieldMask w
          = s.EnvMask3Voices &&& fieldMask w ∧
        (Sound_WriteReg freq s (8 + v) data).Vol3Voices &&& fieldMask w
          = s.Vol3Voices &&& fieldMask w)) := by
  constructor
  · intro freq l
    have hinit : voiceExclusive ymZeroState := by
      intro v hv
      left
      exact Nat.zero_and _
    suffices h : ∀ t s, voiceExclusive s → voiceExclusive (applyWrites freq s t)
      from h l ymZeroState hinit
    intro t
    induction t with
    | nil => exact fun s hs => hs
    | cons p r ih =>
        intro s hs
        exact ih _ (sound_WriteReg_preserves_exclusive freq s p.1 p.2 hs)
  · intro freq s v data hv hdata
    exact sound_WriteReg_amp_effects freq s v data hv hdata

/-- Witness for C7: writing 0x10 to register 8 from the zero state puts
voice A in envelope mode with a cleared fixed-volume field. -/
theorem ampRegister_env_vol_exclusive_witness :
    (Sound_WriteReg 44100 ymZeroState (8 + 0) 16).EnvMask3Voices &&& fieldMask 0
      = fieldMask 0 ∧
    (Sound_WriteReg 44100 ymZeroState (8 + 0) 16).Vol3Voices &&& fieldMask 0 = 0 :=
  (ampRegister_env_vol_exclusive.2 44100 ymZeroState 0 16 (by decide)
    (by decide)).1 (by decide)

/-! Claim C9: starting a recording session. -/

/-- C9 as stated is false: the filename .ym matches the .ym recording
extension yet Sound_BeginRecording fails on it, because the C code first
rejects every name whose length is at most 3. -/
theorem beginRecording_shortName_failure :
    (Sound_BeginRecording ymZeroState (some ['.', 'y', 'm']) true true).1 = false ∧
    File_DoesFileExtensionMatch ['.', 'y', 'm'] ['.', 'y', 'm'] = true := by
  decide

/-- C9 amended: with the recording collaborators assumed to succeed,
Sound_BeginRecording returns failure exactly when no filename is supplied,
or the filename has at most 3 characters, or it matches neither the .ym
nor the .wav extension; and the function never modifies any generator or
buffer state, whatever the name and the collaborator results are. -/
theorem beginRecording_failure_iff :
    (∀ (s : YmState) name ymResult wavResult,
      (Sound_BeginRecording s name ymResult wavResult).2 = s) ∧
    (∀ (s : YmState) name,
      ((Sound_BeginRecording s name true true).1 = false ↔
        name = none ∨ ∃ f, name = some f ∧
          (f.length ≤ 3 ∨
            (File_DoesFileExtensionMatch f ['.', 'y', 'm'] = false ∧
             File_DoesFileExtensionMatch f ['.', 'w', 'a', 'v'] = false)))) := by
  constructor
  · intro s name ymResult wavResult
    match name with
    | none => rfl
    | some f =>
        simp only [Sound_BeginRecording]
        split_ifs <;> rfl
  · intro s name
    match name with
    | none => simp [Sound_BeginRecording]
    | some f =>
        simp only [Sound_BeginRecording]
        split_ifs with h1 h2 h3
        · simp only [eq_self_iff_true, true_iff]
          exact Or.inr ⟨f, rfl, Or.inl h1⟩
        · constructor
          · intro hfalse
            exact absurd hfalse (by decide)
          · rintro (hnone | ⟨g, hg, hcase⟩)
            · exact absurd hnone (by simp)
            · obtain rfl : g = f := by injection hg with h; exact h.symm
              rcases hcase with hlen | ⟨hym, _⟩
              · omega
              · rw [h2] at hym
                exact absurd hym (by decide)
        · constructor
          · intro hfalse
            exact absurd hfalse (by decide)
          · rintro (hnone | ⟨g, hg, hcase⟩)
            · exact absurd hnone (by simp)
            · obtain rfl : g = f := by injection hg with h; exact h.symm
              rcases hcase with hlen | ⟨hym, hwav⟩
              · omega
              · rw [h3] at hwav
                exact absurd hwav (by decide)
        · simp only [eq_self_iff_true, true_iff]
          refine Or.inr ⟨f, rfl, Or.inr ⟨?_, ?_⟩⟩
          · exact Bool.not_eq_true _ ▸ (by simpa using h2)
          · exact Bool.not_eq_true _ ▸ (by simpa using h3)

/-- Witness for C6 at 44100 Hz: period 2 pins the step to 0 and the
register write resets the noise level, period 3 gives a positive step. -/
theorem noiseStep_floor_witness :
    Ym2149_NoiseStepCompute 44100 2 = 0 ∧
    0 < Ym2149_NoiseStepCompute 44100 3 ∧
    (Sound_WriteReg 44100 ymZeroState 6 2).currentNoise = 0xffff :=
  ⟨(noiseStep_floor 44100 (by decide) (by decide)).1 2 (by decide),
   (noiseStep_floor 44100 (by decide) (by decide)).2.1 3 (by decide),
   ((noiseStep_floor 44100 (by decide) (by decide)).2.2 ymZeroState 2 (by decide)).2.2⟩

/-- Witness for C9 amended on a well-formed .ym filename. -/
theorem beginRecording_failure_iff_witness :
    (Sound_BeginRecording ymZeroState (some ['a', '.', 'y', 'm']) true true).2
      = ymZeroState ∧
    ((Sound_BeginRecording ymZeroState (some ['a', '.', 'y', 'm']) true true).1
        = false ↔
      (some ['a', '.', 'y', 'm'] : Option (List Char)) = none ∨
        ∃ f, (some ['a', '.', 'y', 'm'] : Option (List Char)) = some f ∧
          (f.length ≤ 3 ∨
            (File_DoesFileExtensionMatch f ['.', 'y', 'm'] = false ∧
             File_DoesFileExtensionMatch f ['.', 'w', 'a', 'v'] = false))) :=
  ⟨beginRecording_failure_iff.1 ymZeroState (some ['a', '.', 'y', 'm']) true true,
   beginRecording_failure_iff.2 ymZeroState (some ['a', '.', 'y', 'm'])⟩

/-- Witness for C10 at the zero-initialized state. -/
theorem nextSample_toneIndex_inBounds_witness :
    YM2149_NextSample_ToneIndex ymZeroState < 32 * 32 * 32 ∧
    YmEnvWaves 0 0 < 32 * 32 * 32 :=
  ⟨nextSample_toneIndex_inBounds.1 ymZeroState,
   nextSample_toneIndex_inBounds.2 0 0⟩
